import Mathlib

/-!
A shallow embedding of the `gpu_bytes` Rust library (`src/lib.rs`): a byte
accumulator (`GpuBytes`) that packs values into std140 / std430 GPU buffer
layouts, the two layout facades (`Std140Bytes`, `Std430Bytes`), the matrix
encoders, and the dynamic-array (`Vec<T>`) encoders.

Machine integers (`usize`) are modelled as `Nat`; bytes as `Nat` (padding
bytes are `0`, data bytes carry the values of the Rust byte slices).
Rust panics are modelled by `Option.none`:
- `offset % align` panics when `align == 0` (remainder by zero), so
  `write_slice` and `align_to` return `none` for a zero alignment;
- the explicit `panic!` on a zero-capacity `Vec<T>` returns `none`;
- the subtraction `total_bytes - buf.bytes.len()` in the `Vec<T>` encoders
  panics on underflow (debug overflow check), modelled by `none` when the
  accumulated bytes exceed the reserved total.
-/

namespace GpuBytesLib

/-- Rust `enum Layout`: the two GPU buffer layout conventions. -/
inductive Layout where
  | std140 : Layout
  | std430 : Layout
deriving DecidableEq

/-- Rust `struct GpuBytes { bytes: Vec<u8>, alignment: usize, layout: Layout }`:
the byte accumulator. -/
structure GpuBytes where
  bytes : List Nat
  alignment : Nat
  layout : Layout
deriving DecidableEq

/-- Rust `GpuBytes::new(layout)`: `Default` gives empty bytes and alignment 0. -/
def GpuBytes.new (layout : Layout) : GpuBytes :=
  { bytes := [], alignment := 0, layout := layout }

/-- Rust `GpuBytes::write_slice(data, align)`: update the running alignment to
the max, then append `(align - (offset % align)) % align` zero padding bytes
followed by `data`. `offset % align` panics when `align == 0`. -/
def GpuBytes.writeSlice (self : GpuBytes) (data : List Nat) (align : Nat) :
    Option GpuBytes :=
  if align = 0 then none
  else
    let offset := self.bytes.length
    let padding := (align - offset % align) % align
    some { self with
      alignment := max self.alignment align,
      bytes := self.bytes ++ List.replicate padding 0 ++ data }

/-- Rust `GpuBytes::write::<T>(data)` where `T = GpuBytes` (whose
`as_gpu_bytes` is `clone`): forward the encoded value's bytes and alignment
to `write_slice`. -/
def GpuBytes.write (self : GpuBytes) (data : GpuBytes) : Option GpuBytes :=
  self.writeSlice data.bytes data.alignment

/-- Rust `GpuBytes::align_to(align)`: pad to `align` and hard-set
`alignment = align`. Panics (remainder by zero) when `align == 0`. -/
def GpuBytes.alignTo (self : GpuBytes) (align : Nat) : Option GpuBytes :=
  if align = 0 then none
  else
    let offset := self.bytes.length
    let padding := (align - offset % align) % align
    some { self with
      bytes := self.bytes ++ List.replicate padding 0,
      alignment := align }

/-- Rust `GpuBytes::align()`: `align_to` the current running alignment. -/
def GpuBytes.align (self : GpuBytes) : Option GpuBytes :=
  self.alignTo self.alignment

/-- Rust `usize::next_multiple_of(rhs)` for `rhs = 16`: the smallest multiple
of `m` that is greater than or equal to `a`. -/
def nextMultipleOf (a m : Nat) : Nat :=
  (a + m - 1) / m * m

/-- The body of the `for` loop of Rust `GpuBytes::write_array`: re-align one
element according to the layout (std140: `align_to` the alignment rounded up
to a multiple of 16; std430: `align()`), then `write` it. -/
def GpuBytes.writeArrayStep (self : GpuBytes) (elem : GpuBytes) :
    Option GpuBytes := do
  let e ← match self.layout with
    | Layout.std140 => elem.alignTo (nextMultipleOf elem.alignment 16)
    | Layout.std430 => elem.align
  self.write e

/-- Rust `GpuBytes::write_array(data)`: run `writeArrayStep` over the
elements in order. -/
def GpuBytes.writeArray (self : GpuBytes) : List GpuBytes → Option GpuBytes
  | [] => some self
  | e :: rest => do
    let b ← self.writeArrayStep e
    b.writeArray rest

/-- Rust `struct Std140Bytes { gpu_bytes: GpuBytes }`. -/
structure Std140Bytes where
  gpu_bytes : GpuBytes
deriving DecidableEq

/-- Rust `Std140Bytes::new()`. -/
def Std140Bytes.new : Std140Bytes :=
  ⟨GpuBytes.new Layout.std140⟩

/-- Rust `Std140Bytes::write::<T>(data)` with the encoding of `data` already
applied (for `T = Std140Bytes`, `as_std140` is `clone`). -/
def Std140Bytes.write (self : Std140Bytes) (data : Std140Bytes) :
    Option Std140Bytes :=
  (self.gpu_bytes.write data.gpu_bytes).map Std140Bytes.mk

/-- Rust `Std140Bytes::align_to(align)`: same arithmetic as
`GpuBytes::align_to`, applied to the wrapped accumulator. -/
def Std140Bytes.alignTo (self : Std140Bytes) (align : Nat) :
    Option Std140Bytes :=
  (self.gpu_bytes.alignTo align).map Std140Bytes.mk

/-- Rust `Std140Bytes::align()`. -/
def Std140Bytes.align (self : Std140Bytes) : Option Std140Bytes :=
  (self.gpu_bytes.align).map Std140Bytes.mk

/-- Rust `Std140Bytes::write_array(data)` with the encodings already
applied. -/
def Std140Bytes.writeArray (self : Std140Bytes) (data : List Std140Bytes) :
    Option Std140Bytes :=
  (self.gpu_bytes.writeArray (data.map Std140Bytes.gpu_bytes)).map
    Std140Bytes.mk

/-- Rust `struct Std430Bytes { gpu_bytes: GpuBytes }`. -/
structure Std430Bytes where
  gpu_bytes : GpuBytes
deriving DecidableEq

/-- Rust `Std430Bytes::new()`. -/
def Std430Bytes.new : Std430Bytes :=
  ⟨GpuBytes.new Layout.std430⟩

/-- Rust `Std430Bytes::write::<T>(data)` with the encoding already applied. -/
def Std430Bytes.write (self : Std430Bytes) (data : Std430Bytes) :
    Option Std430Bytes :=
  (self.gpu_bytes.write data.gpu_bytes).map Std430Bytes.mk

/-- Rust `Std430Bytes::align_to(align)`. -/
def Std430Bytes.alignTo (self : Std430Bytes) (align : Nat) :
    Option Std430Bytes :=
  (self.gpu_bytes.alignTo align).map Std430Bytes.mk

/-- Rust `Std430Bytes::align()`. -/
def Std430Bytes.align (self : Std430Bytes) : Option Std430Bytes :=
  (self.gpu_bytes.align).map Std430Bytes.mk

/-- Rust `Std430Bytes::write_array(data)` with the encodings already
applied. -/
def Std430Bytes.writeArray (self : Std430Bytes) (data : List Std430Bytes) :
    Option Std430Bytes :=
  (self.gpu_bytes.writeArray (data.map Std430Bytes.gpu_bytes)).map
    Std430Bytes.mk

/-- The four little-endian bytes of a 32-bit value: the `bytemuck::cast` of a
`u32` (or the bit pattern of any 4-byte scalar). -/
def le4 (x : Nat) : List Nat :=
  [x % 256, x / 256 % 256, x / 65536 % 256, x / 16777216 % 256]

/-- `primitive_impl_std140_std430!(u32, align = 4)`, std140 side: the cast
bytes with alignment 4 in a fresh buffer. -/
def u32Std140 (x : Nat) : Std140Bytes :=
  ⟨{ bytes := le4 x, alignment := 4, layout := Layout.std140 }⟩

/-- `primitive_impl_std140_std430!(u32, align = 4)`, std430 side. -/
def u32Std430 (x : Nat) : Std430Bytes :=
  ⟨{ bytes := le4 x, alignment := 4, layout := Layout.std430 }⟩

/-- `primitive_impl_std140_std430!(glam::UVec3, align = 16)`, std140 side:
the 12 cast bytes with alignment 16. -/
def uvec3Std140 (x y z : Nat) : Std140Bytes :=
  ⟨{ bytes := le4 x ++ le4 y ++ le4 z, alignment := 16,
     layout := Layout.std140 }⟩

/-- The std140 encoding of a `glam::Vec3` matrix column: its 12-byte
`bytemuck` bit pattern (given abstractly) with alignment 16. -/
def colVec3Std140 (bits : List Nat) : Std140Bytes :=
  ⟨{ bytes := bits, alignment := 16, layout := Layout.std140 }⟩

/-- The std430 encoding of a `glam::Vec3` matrix column. -/
def colVec3Std430 (bits : List Nat) : Std430Bytes :=
  ⟨{ bytes := bits, alignment := 16, layout := Layout.std430 }⟩

/-- The std140 encoding of a `glam::Vec4` matrix column: its 16-byte bit
pattern with alignment 16. -/
def colVec4Std140 (bits : List Nat) : Std140Bytes :=
  ⟨{ bytes := bits, alignment := 16, layout := Layout.std140 }⟩

/-- The std430 encoding of a `glam::Vec4` matrix column. -/
def colVec4Std430 (bits : List Nat) : Std430Bytes :=
  ⟨{ bytes := bits, alignment := 16, layout := Layout.std430 }⟩

/-- `primitive_impl_std140_std430_matrix!(glam::Mat3, columns = 3)`, std140
side: write the columns `col 0`, `col 1`, `col 2` in order into a fresh
buffer (`col i` is the 12-byte bit pattern of column `i`). -/
def mat3AsStd140 (col : Fin 3 → List Nat) : Option Std140Bytes := do
  let b1 ← Std140Bytes.new.write (colVec3Std140 (col 0))
  let b2 ← b1.write (colVec3Std140 (col 1))
  b2.write (colVec3Std140 (col 2))

/-- `primitive_impl_std140_std430_matrix!(glam::Mat3, columns = 3)`, std430
side. -/
def mat3AsStd430 (col : Fin 3 → List Nat) : Option Std430Bytes := do
  let b1 ← Std430Bytes.new.write (colVec3Std430 (col 0))
  let b2 ← b1.write (colVec3Std430 (col 1))
  b2.write (colVec3Std430 (col 2))

/-- `primitive_impl_std140_std430_matrix!(glam::Mat4, columns = 4)`, std140
side: `col i` is the 16-byte bit pattern of column `i`. -/
def mat4AsStd140 (col : Fin 4 → List Nat) : Option Std140Bytes := do
  let b1 ← Std140Bytes.new.write (colVec4Std140 (col 0))
  let b2 ← b1.write (colVec4Std140 (col 1))
  let b3 ← b2.write (colVec4Std140 (col 2))
  b3.write (colVec4Std140 (col 3))

/-- `primitive_impl_std140_std430_matrix!(glam::Mat4, columns = 4)`, std430
side. -/
def mat4AsStd430 (col : Fin 4 → List Nat) : Option Std430Bytes := do
  let b1 ← Std430Bytes.new.write (colVec4Std430 (col 0))
  let b2 ← b1.write (colVec4Std430 (col 1))
  let b3 ← b2.write (colVec4Std430 (col 2))
  b3.write (colVec4Std430 (col 3))

/-- A Rust `Vec<T>`: its populated elements and its capacity, with the Rust
guarantee `len() <= capacity()`. -/
structure RustVec (α : Type) where
  elems : List α
  cap : Nat
  length_le_cap : elems.length ≤ cap

/-- The element loop of `impl AsStd140 for Vec<T>`: for each element, encode
it, `align_to(16)` its own buffer, and append its bytes to the accumulator
(a raw `extend_from_slice`, no inter-element padding by the accumulator). -/
def std140ArrayBody {α : Type} (enc : α → Std140Bytes) :
    List α → List Nat → Option (List Nat)
  | [], acc => some acc
  | e :: rest, acc => do
    let s ← (enc e).alignTo 16
    std140ArrayBody enc rest (acc ++ s.gpu_bytes.bytes)

/-- Rust `impl<T: AsStd140 + Default> AsStd140 for Vec<T>`:
panic on zero capacity; stride = length of the default value's encoding
after `align_to(16)`; total = stride × capacity; append every element's
re-aligned bytes, then pad with zeros up to total. The subtraction
`total_bytes - buf.bytes.len()` underflows (panics) when the accumulated
bytes exceed the total. Resulting alignment is 16. -/
def vecAsStd140 {α : Type} (enc : α → Std140Bytes) (defaultVal : α)
    (v : RustVec α) : Option Std140Bytes :=
  if v.cap = 0 then none
  else
    ((enc defaultVal).alignTo 16).bind fun d =>
      (std140ArrayBody enc v.elems []).bind fun body =>
        if d.gpu_bytes.bytes.length * v.cap < body.length then none
        else
          some ⟨{
            bytes := body ++
              List.replicate (d.gpu_bytes.bytes.length * v.cap - body.length) 0,
            alignment := 16,
            layout := Layout.std140 }⟩

/-- The element loop of `impl AsStd430 for Vec<T>`: encode each element,
`align()` its own buffer, append its bytes. -/
def std430ArrayBody {α : Type} (enc : α → Std430Bytes) :
    List α → List Nat → Option (List Nat)
  | [], acc => some acc
  | e :: rest, acc => do
    let s ← (enc e).align
    std430ArrayBody enc rest (acc ++ s.gpu_bytes.bytes)

/-- Rust `impl<T: AsStd430 + Default> AsStd430 for Vec<T>`: like the std140
impl but elements are re-aligned with `align()` (their own alignment), and
the resulting alignment is the alignment of the default value's encoding
(the outer `std430` binding at the final assignment). -/
def vecAsStd430 {α : Type} (enc : α → Std430Bytes) (defaultVal : α)
    (v : RustVec α) : Option Std430Bytes :=
  if v.cap = 0 then none
  else
    ((enc defaultVal).align).bind fun d =>
      (std430ArrayBody enc v.elems []).bind fun body =>
        if d.gpu_bytes.bytes.length * v.cap < body.length then none
        else
          some ⟨{
            bytes := body ++
              List.replicate (d.gpu_bytes.bytes.length * v.cap - body.length) 0,
            alignment := d.gpu_bytes.alignment,
            layout := Layout.std430 }⟩

/-- The per-element stride the std140 `Vec<T>` encoder reserves: the byte
length of an encoded value after `align_to(16)`. -/
def strideStd140 (s : Std140Bytes) : Nat :=
  s.gpu_bytes.bytes.length +
    (16 - s.gpu_bytes.bytes.length % 16) % 16

/-- The per-element stride the std430 `Vec<T>` encoder reserves: the byte
length of an encoded value after `align()` (padding to its own alignment). -/
def strideStd430 (s : Std430Bytes) : Nat :=
  s.gpu_bytes.bytes.length +
    (s.gpu_bytes.alignment - s.gpu_bytes.bytes.length % s.gpu_bytes.alignment) %
      s.gpu_bytes.alignment

/-- A `Vec<Std140Bytes>` holding one non-empty encoded value, capacity 1.
`Std140Bytes` implements both `AsStd140` (by cloning) and `Default` (an
empty buffer), so this is a legal input to the `Vec<T>` std140 encoder; the
default encoding is empty, so the element's bytes overrun the reserved
total and the final subtraction underflows. -/
def badVecStd140 : RustVec Std140Bytes :=
  ⟨[⟨{ bytes := [1, 2, 3, 4], alignment := 4, layout := Layout.std140 }⟩], 1,
    by decide⟩

/-- A one-element `Vec<Std140Bytes>` with capacity 2 whose element is its
own default-shaped encoding (4 data bytes, alignment 4). -/
def exVecStd140 : RustVec Std140Bytes :=
  ⟨[⟨{ bytes := [1, 2, 3, 4], alignment := 4, layout := Layout.std140 }⟩], 2,
    by decide⟩

/-- A one-element `Vec<Std430Bytes>` with capacity 2 (4 data bytes,
alignment 4). -/
def exVecStd430 : RustVec Std430Bytes :=
  ⟨[⟨{ bytes := [1, 2, 3, 4], alignment := 4, layout := Layout.std430 }⟩], 2,
    by decide⟩

/-- The default value used with `exVecStd140`: a 4-byte element encoding of
alignment 4 (as a `u32` has). -/
def exDefaultStd140 : Std140Bytes :=
  ⟨{ bytes := [9, 9, 9, 9], alignment := 4, layout := Layout.std140 }⟩

/-- The default value used with `exVecStd430`. -/
def exDefaultStd430 : Std430Bytes :=
  ⟨{ bytes := [9, 9, 9, 9], alignment := 4, layout := Layout.std430 }⟩

/-- A `Vec<Std140Bytes>` of capacity 1 holding a 20-byte encoded value: its
re-aligned encoding (32 bytes) is longer than `exDefaultStd140`'s (16
bytes), so the reserved total (16) is smaller than the accumulated bytes and
the final subtraction underflows. -/
def longElemVecStd140 : RustVec Std140Bytes :=
  ⟨[⟨{ bytes := List.replicate 20 7, alignment := 4,
       layout := Layout.std140 }⟩], 1, by decide⟩

/-- Sanity check mirroring the repo test `std140_vec3_and_scalar`. -/
example :
    (do
      let b1 ← Std140Bytes.new.write (uvec3Std140 4294967295 4294967295 4294967295)
      let b2 ← b1.write (u32Std140 4294967295)
      b2.align) =
    some ⟨{ bytes := List.replicate 16 255, alignment := 16,
            layout := Layout.std140 }⟩ := by
  decide

/-- Sanity check mirroring the repo test `std140_scalar_and_vec3`. -/
example :
    (do
      let b1 ← Std140Bytes.new.write (u32Std140 4294967295)
      let b2 ← b1.write (uvec3Std140 4294967295 4294967295 4294967295)
      b2.align) =
    some ⟨{ bytes :=
              List.replicate 4 255 ++ List.replicate 12 0 ++
                List.replicate 12 255 ++ List.replicate 4 0,
            alignment := 16, layout := Layout.std140 }⟩ := by
  decide

/-- Sanity check mirroring the repo test `std430_scalar_array`. -/
example :
    (do
      let b1 ← Std430Bytes.new.writeArray [u32Std430 4294967295, u32Std430 4294967295]
      b1.align) =
    some ⟨{ bytes := List.replicate 8 255, alignment := 4,
            layout := Layout.std430 }⟩ := by
  decide

/-! ### Arithmetic of the padding computation -/

/-- Adding `(a - len % a) % a` to `len` lands on a multiple of `a`. -/
theorem pad_mod (len a : Nat) (h : 0 < a) :
    (len + (a - len % a) % a) % a = 0 := by
  have hdm : a * (len / a) + len % a = len := Nat.div_add_mod len a
  have hlt : len % a < a := Nat.mod_lt _ h
  rcases Nat.eq_zero_or_pos (len % a) with h0 | hpos
  · rw [h0, Nat.sub_zero, Nat.mod_self, Nat.add_zero, h0]
  · rw [Nat.mod_eq_of_lt (show a - len % a < a by omega)]
    generalize hq : a * (len / a) = m at hdm
    have h2 : len + (a - len % a) = m + a := by omega
    rw [h2, Nat.add_mod_right, ← hq, Nat.mul_mod_right]

/-- The padding is smaller than the alignment. -/
theorem pad_lt (len a : Nat) (h : 0 < a) : (a - len % a) % a < a :=
  Nat.mod_lt _ h

/-- `len + (a - len % a) % a` is the least multiple of `a` that is `≥ len`. -/
theorem roundUp_least (len a m : Nat) (h : 0 < a) (hm : m % a = 0)
    (hlen : len ≤ m) : len + (a - len % a) % a ≤ m := by
  by_contra hc
  push_neg at hc
  have hds : (len + (a - len % a) % a) % a = 0 := pad_mod len a h
  have hd1 : a ∣ (len + (a - len % a) % a) := Nat.dvd_of_mod_eq_zero hds
  have hd2 : a ∣ m := Nat.dvd_of_mod_eq_zero hm
  have hd3 : a ∣ (len + (a - len % a) % a - m) := Nat.dvd_sub' hd1 hd2
  have hple : (a - len % a) % a < a := Nat.mod_lt _ h
  have hpos2 : 0 < len + (a - len % a) % a - m := by omega
  have := Nat.le_of_dvd hpos2 hd3
  omega

/-- `nextMultipleOf a 16` is a multiple of 16. -/
theorem nextMultipleOf_16_dvd (a : Nat) : 16 ∣ nextMultipleOf a 16 := by
  unfold nextMultipleOf
  omega

/-- `nextMultipleOf a 16` is at least `a`. -/
theorem le_nextMultipleOf_16 (a : Nat) : a ≤ nextMultipleOf a 16 := by
  unfold nextMultipleOf
  omega

/-- `nextMultipleOf a 16` is positive for positive `a`. -/
theorem nextMultipleOf_16_pos (a : Nat) (h : 0 < a) :
    0 < nextMultipleOf a 16 := by
  unfold nextMultipleOf
  omega

/-- `nextMultipleOf a 16` is the least multiple of 16 that is `≥ a`. -/
theorem nextMultipleOf_16_least (a m : Nat) (hm : 16 ∣ m) (ha : a ≤ m) :
    nextMultipleOf a 16 ≤ m := by
  unfold nextMultipleOf
  omega

/-! ### Inversion and evaluation lemmas for the accumulator operations -/

/-- `write_slice` with a positive alignment, evaluated. -/
theorem writeSlice_pos (b : GpuBytes) (data : List Nat) (a : Nat) (h : 0 < a) :
    b.writeSlice data a =
      some { b with
        alignment := max b.alignment a,
        bytes := b.bytes ++ List.replicate ((a - b.bytes.length % a) % a) 0 ++ data } := by
  unfold GpuBytes.writeSlice
  rw [if_neg (Nat.pos_iff_ne_zero.mp h)]

/-- Inversion for a successful `write_slice`. -/
theorem writeSlice_eq_some {b b' : GpuBytes} {data : List Nat} {a : Nat}
    (h : b.writeSlice data a = some b') :
    0 < a ∧ b' = { b with
      alignment := max b.alignment a,
      bytes := b.bytes ++ List.replicate ((a - b.bytes.length % a) % a) 0 ++ data } := by
  unfold GpuBytes.writeSlice at h
  by_cases ha : a = 0
  · rw [if_pos ha] at h
    exact absurd h (by simp)
  · rw [if_neg ha] at h
    exact ⟨Nat.pos_of_ne_zero ha, (Option.some_inj.mp h).symm⟩

/-- `align_to` with a positive alignment, evaluated. -/
theorem alignTo_pos (b : GpuBytes) (a : Nat) (h : 0 < a) :
    b.alignTo a =
      some { b with
        bytes := b.bytes ++ List.replicate ((a - b.bytes.length % a) % a) 0,
        alignment := a } := by
  unfold GpuBytes.alignTo
  rw [if_neg (Nat.pos_iff_ne_zero.mp h)]

/-- Inversion for a successful `align_to`. -/
theorem alignTo_eq_some {b b' : GpuBytes} {a : Nat} (h : b.alignTo a = some b') :
    0 < a ∧ b' = { b with
      bytes := b.bytes ++ List.replicate ((a - b.bytes.length % a) % a) 0,
      alignment := a } := by
  unfold GpuBytes.alignTo at h
  by_cases ha : a = 0
  · rw [if_pos ha] at h
    exact absurd h (by simp)
  · rw [if_neg ha] at h
    exact ⟨Nat.pos_of_ne_zero ha, (Option.some_inj.mp h).symm⟩

/-! ### C1 -/

/-- Claim C1: for every accumulator state and every element written with
alignment `a` (the write completing requires `0 < a`), `write_slice` appends
`(a - (len % a)) % a` zero bytes and then the data, so the data starts at
offset `len + pad`, which is a multiple of `a`, is at least the length `len`
before the write, and is the smallest such multiple. -/
theorem C1_write_offset (b : GpuBytes) (data : List Nat) (a : Nat)
    (h : 0 < a) :
    b.writeSlice data a =
      some { b with
        alignment := max b.alignment a,
        bytes := b.bytes ++
          List.replicate ((a - b.bytes.length % a) % a) 0 ++ data } ∧
    (b.bytes.length + (a - b.bytes.length % a) % a) % a = 0 ∧
    b.bytes.length ≤ b.bytes.length + (a - b.bytes.length % a) % a ∧
    (∀ m, m % a = 0 → b.bytes.length ≤ m →
      b.bytes.length + (a - b.bytes.length % a) % a ≤ m) :=
  ⟨writeSlice_pos b data a h, pad_mod _ _ h, Nat.le_add_right _ _,
    fun _ hm hlen => roundUp_least _ _ _ h hm hlen⟩

/-- Witness for C1 at a concrete state: buffer holding one byte, element of
alignment 4 — three padding bytes are inserted and the data starts at
offset 4, the smallest multiple of 4 that is `≥ 1`. -/
theorem C1_write_offset_witness :
    0 < 4 ∧
    ((GpuBytes.mk [7] 2 Layout.std140).writeSlice [9] 4 =
        some (GpuBytes.mk [7, 0, 0, 0, 9] 4 Layout.std140) ∧
      (4 : Nat) % 4 = 0 ∧
      (1 : Nat) ≤ 4 ∧
      (∀ m, m % 4 = 0 → 1 ≤ m → 4 ≤ m)) :=
  ⟨by decide, C1_write_offset (GpuBytes.mk [7] 2 Layout.std140) [9] 4 (by decide)⟩

/-! ### Lemmas about `write_array` -/

/-- `writeArrayStep` on a std140 accumulator, unfolded. -/
theorem writeArrayStep_std140 (b e : GpuBytes) (hl : b.layout = Layout.std140) :
    b.writeArrayStep e =
      (e.alignTo (nextMultipleOf e.alignment 16)).bind b.write := by
  unfold GpuBytes.writeArrayStep
  rw [hl]
  rfl

/-- `writeArrayStep` on a std430 accumulator, unfolded. -/
theorem writeArrayStep_std430 (b e : GpuBytes) (hl : b.layout = Layout.std430) :
    b.writeArrayStep e = (e.align).bind b.write := by
  unfold GpuBytes.writeArrayStep
  rw [hl]
  rfl

/-- `write_array` on the empty list. -/
theorem writeArray_nil (b : GpuBytes) : b.writeArray [] = some b :=
  rfl

/-- `write_array` unrolled one step. -/
theorem writeArray_cons (b e : GpuBytes) (rest : List GpuBytes) :
    b.writeArray (e :: rest) =
      (b.writeArrayStep e).bind (fun x => x.writeArray rest) :=
  rfl

/-- One `write_array` iteration never lowers the running alignment. -/
theorem writeArrayStep_alignment_le {b e b' : GpuBytes}
    (h : b.writeArrayStep e = some b') : b.alignment ≤ b'.alignment := by
  cases hl : b.layout with
  | std140 =>
    rw [writeArrayStep_std140 b e hl] at h
    obtain ⟨e', _, hw⟩ := Option.bind_eq_some.mp h
    obtain ⟨_, rfl⟩ := writeSlice_eq_some hw
    exact Nat.le_max_left _ _
  | std430 =>
    rw [writeArrayStep_std430 b e hl] at h
    obtain ⟨e', _, hw⟩ := Option.bind_eq_some.mp h
    obtain ⟨_, rfl⟩ := writeSlice_eq_some hw
    exact Nat.le_max_left _ _

/-- `write_array` never lowers the running alignment. -/
theorem writeArray_alignment_le :
    ∀ (l : List GpuBytes) (b b' : GpuBytes),
      b.writeArray l = some b' → b.alignment ≤ b'.alignment
  | [], b, b', h => by
    rw [writeArray_nil] at h
    cases h
    exact Nat.le_refl _
  | e :: rest, b, b', h => by
    rw [writeArray_cons] at h
    obtain ⟨b1, hs, hr⟩ := Option.bind_eq_some.mp h
    exact Nat.le_trans (writeArrayStep_alignment_le hs)
      (writeArray_alignment_le rest b1 b' hr)

/-- A `write_array` iteration on an element with positive alignment
succeeds. -/
theorem writeArrayStep_isSome (b e : GpuBytes) (he : 0 < e.alignment) :
    ∃ b', b.writeArrayStep e = some b' := by
  cases hl : b.layout with
  | std140 =>
    rw [writeArrayStep_std140 b e hl,
      alignTo_pos e _ (nextMultipleOf_16_pos _ he), Option.some_bind]
    unfold GpuBytes.write
    rw [writeSlice_pos _ _ _ (nextMultipleOf_16_pos _ he)]
    exact ⟨_, rfl⟩
  | std430 =>
    rw [writeArrayStep_std430 b e hl]
    unfold GpuBytes.align
    rw [alignTo_pos e _ he, Option.some_bind]
    unfold GpuBytes.write
    rw [writeSlice_pos _ _ _ he]
    exact ⟨_, rfl⟩

/-- `write_array` over elements of positive alignment succeeds. -/
theorem writeArray_isSome :
    ∀ (l : List GpuBytes) (b : GpuBytes), (∀ e ∈ l, 0 < e.alignment) →
      ∃ b', b.writeArray l = some b'
  | [], b, _ => ⟨b, rfl⟩
  | e :: rest, b, h => by
    obtain ⟨b1, hs⟩ := writeArrayStep_isSome b e (h e (List.mem_cons_self e rest))
    obtain ⟨b', hr⟩ := writeArray_isSome rest b1
      (fun x hx => h x (List.mem_cons_of_mem e hx))
    exact ⟨b', by rw [writeArray_cons, hs, Option.some_bind, hr]⟩

/-! ### C5 -/

/-- Claim C5 counterexample: `align_to(2)` on an accumulator whose running
alignment is 16 succeeds and lowers the `alignment` field from 16 to 2, so
the alignment field is not monotone across all operations. -/
theorem C5_counterexample :
    (GpuBytes.mk [] 16 Layout.std140).alignTo 2 =
      some (GpuBytes.mk [] 2 Layout.std140) ∧ (2 : Nat) < 16 := by
  decide

/-- Claim C5 amended: every completed `write` sets the alignment field to the
max of its current value and the incoming alignment, and `write`,
`write_array` and `align` never decrease it; but `align_to(n)` hard-sets the
field to `n` regardless of its prior value, and so can decrease it. -/
theorem C5_alignment_updates (b b' : GpuBytes) (data : List Nat) (a : Nat)
    (l : List GpuBytes) :
    (b.writeSlice data a = some b' →
      b'.alignment = max b.alignment a ∧ b.alignment ≤ b'.alignment) ∧
    (b.writeArray l = some b' → b.alignment ≤ b'.alignment) ∧
    (b.align = some b' → b'.alignment = b.alignment) ∧
    (b.alignTo a = some b' → b'.alignment = a) := by
  refine ⟨fun h => ?_, fun h => writeArray_alignment_le l b b' h,
    fun h => ?_, fun h => ?_⟩
  · obtain ⟨_, rfl⟩ := writeSlice_eq_some h
    exact ⟨rfl, Nat.le_max_left _ _⟩
  · unfold GpuBytes.align at h
    obtain ⟨_, rfl⟩ := alignTo_eq_some h
    rfl
  · obtain ⟨_, rfl⟩ := alignTo_eq_some h
    rfl

/-- Witness for C5 at a concrete accumulator of alignment 4: writing an
element of alignment 4, an empty `write_array`, `align`, and `align_to(4)`
each leave the alignment field at 4. -/
theorem C5_alignment_updates_witness :
    ((4 : Nat) = max 4 4 ∧ (4 : Nat) ≤ 4) ∧ (4 : Nat) ≤ 4 ∧
      (4 : Nat) = 4 ∧ (4 : Nat) = 4 :=
  ⟨(C5_alignment_updates (GpuBytes.mk [] 4 Layout.std430)
      (GpuBytes.mk [] 4 Layout.std430) [] 4 []).1 (by decide),
   (C5_alignment_updates (GpuBytes.mk [] 4 Layout.std430)
      (GpuBytes.mk [] 4 Layout.std430) [] 4 []).2.1 (by decide),
   (C5_alignment_updates (GpuBytes.mk [] 4 Layout.std430)
      (GpuBytes.mk [] 4 Layout.std430) [] 4 []).2.2.1 (by decide),
   (C5_alignment_updates (GpuBytes.mk [] 4 Layout.std430)
      (GpuBytes.mk [] 4 Layout.std430) [] 4 []).2.2.2 (by decide)⟩

/-! ### C6 -/

/-- Claim C6 counterexample: `align()` on a freshly constructed accumulator
(running alignment 0) takes a remainder by zero and panics, in both layouts —
so not every non-array operation is total. -/
theorem C6_counterexample :
    (GpuBytes.new Layout.std140).align = none ∧
    (GpuBytes.new Layout.std430).align = none := by
  decide

/-- Claim C6 amended: the padding and alignment arithmetic of `write_slice`,
`align_to`, `align` and `write_array` is total whenever the relevant
alignment is positive: `write_slice` and `align_to` succeed for every
positive alignment argument, `align` succeeds whenever the running alignment
is positive (on a freshly constructed buffer it is 0 and `align` panics on a
remainder by zero), and `write_array` succeeds whenever every element's
alignment is positive. -/
theorem C6_totality (b : GpuBytes) (data : List Nat) (a : Nat)
    (l : List GpuBytes) :
    (0 < a → (b.writeSlice data a).isSome = true) ∧
    (0 < a → (b.alignTo a).isSome = true) ∧
    (0 < b.alignment → (b.align).isSome = true) ∧
    ((∀ e ∈ l, 0 < e.alignment) → (b.writeArray l).isSome = true) := by
  refine ⟨fun h => ?_, fun h => ?_, fun h => ?_, fun h => ?_⟩
  · rw [writeSlice_pos b data a h]
    rfl
  · rw [alignTo_pos b a h]
    rfl
  · unfold GpuBytes.align
    rw [alignTo_pos b _ h]
    rfl
  · obtain ⟨b', hb'⟩ := writeArray_isSome l b h
    rw [hb']
    rfl

/-- Witness for C6 at concrete inputs: an accumulator of alignment 4,
alignment argument 4, and a one-element array of alignment 4 — all four
operations succeed. -/
theorem C6_totality_witness :
    ((GpuBytes.mk [] 4 Layout.std430).writeSlice [5] 4).isSome = true ∧
    ((GpuBytes.mk [] 4 Layout.std430).alignTo 4).isSome = true ∧
    ((GpuBytes.mk [] 4 Layout.std430).align).isSome = true ∧
    ((GpuBytes.mk [] 4 Layout.std430).writeArray
      [GpuBytes.mk [1, 2, 3, 4] 4 Layout.std430]).isSome = true :=
  ⟨(C6_totality (GpuBytes.mk [] 4 Layout.std430) [5] 4
      [GpuBytes.mk [1, 2, 3, 4] 4 Layout.std430]).1 (by decide),
   (C6_totality (GpuBytes.mk [] 4 Layout.std430) [5] 4
      [GpuBytes.mk [1, 2, 3, 4] 4 Layout.std430]).2.1 (by decide),
   (C6_totality (GpuBytes.mk [] 4 Layout.std430) [5] 4
      [GpuBytes.mk [1, 2, 3, 4] 4 Layout.std430]).2.2.1 (by decide),
   (C6_totality (GpuBytes.mk [] 4 Layout.std430) [5] 4
      [GpuBytes.mk [1, 2, 3, 4] 4 Layout.std430]).2.2.2 (by decide)⟩

/-! ### C7 -/

/-- Claim C7: under std140 (ConventionA), a `write_array` iteration rounds
the element's alignment up to `nextMultipleOf alignment 16` — the smallest
multiple of 16 that is at least the alignment — pads the element's trailing
bytes out to that boundary before appending it, and the resulting element
block (its stride, trailing padding included) has length a multiple of 16. -/
theorem C7_std140_array_stride (buf e : GpuBytes)
    (hl : buf.layout = Layout.std140) (ha : 0 < e.alignment) :
    16 ∣ nextMultipleOf e.alignment 16 ∧
    e.alignment ≤ nextMultipleOf e.alignment 16 ∧
    (∀ m, 16 ∣ m → e.alignment ≤ m → nextMultipleOf e.alignment 16 ≤ m) ∧
    ∃ padE padB,
      e.alignTo (nextMultipleOf e.alignment 16) =
        some { e with
          bytes := e.bytes ++ List.replicate padE 0,
          alignment := nextMultipleOf e.alignment 16 } ∧
      16 ∣ (e.bytes ++ List.replicate padE 0).length ∧
      buf.writeArrayStep e =
        some { buf with
          alignment := max buf.alignment (nextMultipleOf e.alignment 16),
          bytes := buf.bytes ++ List.replicate padB 0 ++
            (e.bytes ++ List.replicate padE 0) } := by
  have ha' : 0 < nextMultipleOf e.alignment 16 := nextMultipleOf_16_pos _ ha
  refine ⟨nextMultipleOf_16_dvd _, le_nextMultipleOf_16 _,
    fun m hm hlem => nextMultipleOf_16_least _ _ hm hlem,
    (nextMultipleOf e.alignment 16 -
      e.bytes.length % nextMultipleOf e.alignment 16) %
      nextMultipleOf e.alignment 16,
    (nextMultipleOf e.alignment 16 -
      buf.bytes.length % nextMultipleOf e.alignment 16) %
      nextMultipleOf e.alignment 16,
    alignTo_pos e _ ha', ?_, ?_⟩
  · have hmod : (e.bytes.length +
        (nextMultipleOf e.alignment 16 -
          e.bytes.length % nextMultipleOf e.alignment 16) %
          nextMultipleOf e.alignment 16) % nextMultipleOf e.alignment 16 = 0 :=
      pad_mod _ _ ha'
    have hdvd := Nat.dvd_of_mod_eq_zero hmod
    simp only [List.length_append, List.length_replicate]
    exact Nat.dvd_trans (nextMultipleOf_16_dvd _) hdvd
  · rw [writeArrayStep_std140 buf e hl, alignTo_pos e _ ha', Option.some_bind]
    unfold GpuBytes.write
    rw [writeSlice_pos _ _ _ ha']

/-- Witness for C7: a std140 accumulator and an element of 4 bytes with
alignment 4 — the element is re-aligned to 16, padded with 12 zero bytes,
and appended as a 16-byte block. -/
theorem C7_std140_array_stride_witness :
    (GpuBytes.new Layout.std140).layout = Layout.std140 ∧ (0 : Nat) < 4 ∧
    ((16 : Nat) ∣ nextMultipleOf 4 16 ∧ (4 : Nat) ≤ nextMultipleOf 4 16 ∧
      (∀ m, 16 ∣ m → 4 ≤ m → nextMultipleOf 4 16 ≤ m) ∧
      ∃ padE padB,
        (GpuBytes.mk [1, 2, 3, 4] 4 Layout.std140).alignTo
            (nextMultipleOf 4 16) =
          some (GpuBytes.mk ([1, 2, 3, 4] ++ List.replicate padE 0)
            (nextMultipleOf 4 16) Layout.std140) ∧
        16 ∣ (([1, 2, 3, 4] : List Nat) ++ List.replicate padE 0).length ∧
        (GpuBytes.new Layout.std140).writeArrayStep
            (GpuBytes.mk [1, 2, 3, 4] 4 Layout.std140) =
          some (GpuBytes.mk
            ([] ++ List.replicate padB 0 ++
              ([1, 2, 3, 4] ++ List.replicate padE 0))
            (max 0 (nextMultipleOf 4 16)) Layout.std140)) :=
  ⟨rfl, by decide,
    C7_std140_array_stride (GpuBytes.new Layout.std140)
      (GpuBytes.mk [1, 2, 3, 4] 4 Layout.std140) rfl (by decide)⟩

/-! ### C8 -/

/-- Claim C8 counterexample: a std430 `write_array` element of 20 bytes with
natural alignment 4 occupies a 20-byte block (bytes length 20, no padding),
so its stride is 20, not its natural alignment 4. -/
theorem C8_counterexample :
    (GpuBytes.new Layout.std430).writeArrayStep
        (GpuBytes.mk (List.replicate 20 1) 4 Layout.std430) =
      some (GpuBytes.mk (List.replicate 20 1) 4 Layout.std430) ∧
    (List.replicate 20 1 : List Nat).length = 20 ∧ (20 : Nat) ≠ 4 := by
  decide

/-- Claim C8 amended: under std430 (ConventionB), each array element is
padded to its own natural alignment before being appended: the element's
stride is its byte length rounded up to the smallest multiple of its own
alignment (not, in general, the alignment itself). -/
theorem C8_std430_array_stride (buf e : GpuBytes)
    (hl : buf.layout = Layout.std430) (ha : 0 < e.alignment) :
    ∃ padE padB,
      e.align = some { e with
        bytes := e.bytes ++ List.replicate padE 0,
        alignment := e.alignment } ∧
      (e.bytes ++ List.replicate padE 0).length % e.alignment = 0 ∧
      e.bytes.length ≤ (e.bytes ++ List.replicate padE 0).length ∧
      (∀ m, m % e.alignment = 0 → e.bytes.length ≤ m →
        (e.bytes ++ List.replicate padE 0).length ≤ m) ∧
      buf.writeArrayStep e =
        some { buf with
          alignment := max buf.alignment e.alignment,
          bytes := buf.bytes ++ List.replicate padB 0 ++
            (e.bytes ++ List.replicate padE 0) } := by
  have hAl : e.align = some { e with
      bytes := e.bytes ++ List.replicate
        ((e.alignment - e.bytes.length % e.alignment) % e.alignment) 0,
      alignment := e.alignment } := by
    unfold GpuBytes.align
    exact alignTo_pos e e.alignment ha
  refine ⟨(e.alignment - e.bytes.length % e.alignment) % e.alignment,
    (e.alignment - buf.bytes.length % e.alignment) % e.alignment,
    hAl, ?_, ?_, ?_, ?_⟩
  · simp only [List.length_append, List.length_replicate]
    exact pad_mod _ _ ha
  · simp only [List.length_append, List.length_replicate]
    exact Nat.le_add_right _ _
  · intro m hm hlem
    simp only [List.length_append, List.length_replicate]
    exact roundUp_least _ _ _ ha hm hlem
  · rw [writeArrayStep_std430 buf e hl, hAl, Option.some_bind]
    unfold GpuBytes.write
    rw [writeSlice_pos _ _ _ ha]

/-- Witness for C8: a std430 accumulator and an element of 5 bytes with
alignment 4 — the element is padded with 3 zero bytes to an 8-byte block,
the smallest multiple of 4 that holds 5 bytes. -/
theorem C8_std430_array_stride_witness :
    (GpuBytes.new Layout.std430).layout = Layout.std430 ∧ (0 : Nat) < 4 ∧
    (∃ padE padB,
      (GpuBytes.mk [1, 2, 3, 4, 5] 4 Layout.std430).align =
        some (GpuBytes.mk ([1, 2, 3, 4, 5] ++ List.replicate padE 0) 4
          Layout.std430) ∧
      (([1, 2, 3, 4, 5] : List Nat) ++ List.replicate padE 0).length % 4 = 0 ∧
      (5 : Nat) ≤ (([1, 2, 3, 4, 5] : List Nat) ++ List.replicate padE 0).length ∧
      (∀ m, m % 4 = 0 → 5 ≤ m →
        (([1, 2, 3, 4, 5] : List Nat) ++ List.replicate padE 0).length ≤ m) ∧
      (GpuBytes.new Layout.std430).writeArrayStep
          (GpuBytes.mk [1, 2, 3, 4, 5] 4 Layout.std430) =
        some (GpuBytes.mk
          ([] ++ List.replicate padB 0 ++
            ([1, 2, 3, 4, 5] ++ List.replicate padE 0))
          (max 0 4) Layout.std430)) :=
  ⟨rfl, by decide,
    C8_std430_array_stride (GpuBytes.new Layout.std430)
      (GpuBytes.mk [1, 2, 3, 4, 5] 4 Layout.std430) rfl (by decide)⟩

/-! ### C2 -/

/-- Claim C2 counterexample: encoding a 3×3 matrix whose column `i` is twelve
copies of the marker byte `i + 1` produces column 0, 4 padding bytes,
column 1, 4 padding bytes, column 2 — each marker occurs exactly 12 times in
the output, so column 1 is written once (not twice) and no column is
omitted. -/
theorem C2_counterexample :
    mat3AsStd140 (fun i => List.replicate 12 (i.val + 1)) =
      some ⟨{ bytes := List.replicate 12 1 ++ List.replicate 4 0 ++
                List.replicate 12 2 ++ List.replicate 4 0 ++
                List.replicate 12 3,
              alignment := 16, layout := Layout.std140 }⟩ ∧
    (List.replicate 12 1 ++ List.replicate 4 0 ++ List.replicate 12 2 ++
      List.replicate 4 0 ++ List.replicate 12 3 : List Nat).count 1 = 12 ∧
    (List.replicate 12 1 ++ List.replicate 4 0 ++ List.replicate 12 2 ++
      List.replicate 4 0 ++ List.replicate 12 3 : List Nat).count 2 = 12 ∧
    (List.replicate 12 1 ++ List.replicate 4 0 ++ List.replicate 12 2 ++
      List.replicate 4 0 ++ List.replicate 12 3 : List Nat).count 3 = 12 := by
  decide

/-- Claim C2 amended: the matrix encoders (3×3 and 4×4, both conventions)
write columns `0..N-1` in order, each exactly once: a Mat3 encodes to
column 0, 4 padding bytes, column 1, 4 padding bytes, column 2, and a Mat4
encodes to its four 16-byte columns back to back. -/
theorem C2_matrix_columns_in_order (c3 : Fin 3 → List Nat)
    (c4 : Fin 4 → List Nat) (h3 : ∀ i, (c3 i).length = 12)
    (h4 : ∀ i, (c4 i).length = 16) :
    mat3AsStd140 c3 =
      some ⟨{ bytes := c3 0 ++ List.replicate 4 0 ++ c3 1 ++
                List.replicate 4 0 ++ c3 2,
              alignment := 16, layout := Layout.std140 }⟩ ∧
    mat3AsStd430 c3 =
      some ⟨{ bytes := c3 0 ++ List.replicate 4 0 ++ c3 1 ++
                List.replicate 4 0 ++ c3 2,
              alignment := 16, layout := Layout.std430 }⟩ ∧
    mat4AsStd140 c4 =
      some ⟨{ bytes := c4 0 ++ c4 1 ++ c4 2 ++ c4 3,
              alignment := 16, layout := Layout.std140 }⟩ ∧
    mat4AsStd430 c4 =
      some ⟨{ bytes := c4 0 ++ c4 1 ++ c4 2 ++ c4 3,
              alignment := 16, layout := Layout.std430 }⟩ := by
  refine ⟨?_, ?_, ?_, ?_⟩
  · unfold mat3AsStd140 Std140Bytes.write GpuBytes.write Std140Bytes.new
      GpuBytes.new colVec3Std140 GpuBytes.writeSlice
    simp [h3, List.append_assoc]
  · unfold mat3AsStd430 Std430Bytes.write GpuBytes.write Std430Bytes.new
      GpuBytes.new colVec3Std430 GpuBytes.writeSlice
    simp [h3, List.append_assoc]
  · unfold mat4AsStd140 Std140Bytes.write GpuBytes.write Std140Bytes.new
      GpuBytes.new colVec4Std140 GpuBytes.writeSlice
    simp [h4, List.append_assoc]
  · unfold mat4AsStd430 Std430Bytes.write GpuBytes.write Std430Bytes.new
      GpuBytes.new colVec4Std430 GpuBytes.writeSlice
    simp [h4, List.append_assoc]

/-- Witness for C2 amended at concrete columns (constant marker bytes). -/
theorem C2_matrix_columns_in_order_witness :
    (∀ i : Fin 3,
      ((fun _ : Fin 3 => List.replicate 12 (5 : Nat)) i).length = 12) ∧
    (∀ i : Fin 4,
      ((fun _ : Fin 4 => List.replicate 16 (6 : Nat)) i).length = 16) ∧
    (mat3AsStd140 (fun _ => List.replicate 12 5) =
      some ⟨{ bytes := List.replicate 12 5 ++ List.replicate 4 0 ++
                List.replicate 12 5 ++ List.replicate 4 0 ++
                List.replicate 12 5,
              alignment := 16, layout := Layout.std140 }⟩ ∧
    mat3AsStd430 (fun _ => List.replicate 12 5) =
      some ⟨{ bytes := List.replicate 12 5 ++ List.replicate 4 0 ++
                List.replicate 12 5 ++ List.replicate 4 0 ++
                List.replicate 12 5,
              alignment := 16, layout := Layout.std430 }⟩ ∧
    mat4AsStd140 (fun _ => List.replicate 16 6) =
      some ⟨{ bytes := List.replicate 16 6 ++ List.replicate 16 6 ++
                List.replicate 16 6 ++ List.replicate 16 6,
              alignment := 16, layout := Layout.std140 }⟩ ∧
    mat4AsStd430 (fun _ => List.replicate 16 6) =
      some ⟨{ bytes := List.replicate 16 6 ++ List.replicate 16 6 ++
                List.replicate 16 6 ++ List.replicate 16 6,
              alignment := 16, layout := Layout.std430 }⟩) :=
  ⟨by decide, by decide,
    C2_matrix_columns_in_order (fun _ => List.replicate 12 5)
      (fun _ => List.replicate 16 6) (by decide) (by decide)⟩

/-! ### Lemmas about the `Vec<T>` encoders -/

/-- `Std140Bytes.align_to(16)` always succeeds: it pads the wrapped bytes to
a multiple of 16 and sets the alignment to 16. -/
theorem std140_alignTo16 (s : Std140Bytes) :
    s.alignTo 16 = some (Std140Bytes.mk (GpuBytes.mk
      (s.gpu_bytes.bytes ++
        List.replicate ((16 - s.gpu_bytes.bytes.length % 16) % 16) 0)
      16 s.gpu_bytes.layout)) := by
  unfold Std140Bytes.alignTo
  rw [alignTo_pos s.gpu_bytes 16 (by decide)]
  rfl

/-- `Std430Bytes.align()` succeeds when the wrapped alignment is positive:
it pads the bytes to that alignment and leaves the alignment unchanged. -/
theorem std430_align_pos (s : Std430Bytes) (h : 0 < s.gpu_bytes.alignment) :
    s.align = some (Std430Bytes.mk (GpuBytes.mk
      (s.gpu_bytes.bytes ++
        List.replicate ((s.gpu_bytes.alignment -
          s.gpu_bytes.bytes.length % s.gpu_bytes.alignment) %
          s.gpu_bytes.alignment) 0)
      s.gpu_bytes.alignment s.gpu_bytes.layout)) := by
  unfold Std430Bytes.align GpuBytes.align
  rw [alignTo_pos s.gpu_bytes _ h]
  rfl

/-- The std140 element loop, unrolled one step. -/
theorem std140ArrayBody_cons {α : Type} (enc : α → Std140Bytes) (e : α)
    (rest : List α) (acc : List Nat) :
    std140ArrayBody enc (e :: rest) acc =
      ((enc e).alignTo 16).bind fun s =>
        std140ArrayBody enc rest (acc ++ s.gpu_bytes.bytes) :=
  rfl

/-- The std430 element loop, unrolled one step. -/
theorem std430ArrayBody_cons {α : Type} (enc : α → Std430Bytes) (e : α)
    (rest : List α) (acc : List Nat) :
    std430ArrayBody enc (e :: rest) acc =
      ((enc e).align).bind fun s =>
        std430ArrayBody enc rest (acc ++ s.gpu_bytes.bytes) :=
  rfl

/-- The std140 element loop always succeeds, and the resulting length is the
accumulator's length plus the sum of the elements' strides. -/
theorem std140ArrayBody_spec {α : Type} (enc : α → Std140Bytes) :
    ∀ (l : List α) (acc : List Nat),
      ∃ body, std140ArrayBody enc l acc = some body ∧
        body.length = acc.length + (l.map fun e => strideStd140 (enc e)).sum
  | [], acc => ⟨acc, rfl, by simp⟩
  | e :: rest, acc => by
    obtain ⟨body, hb, hlen⟩ := std140ArrayBody_spec enc rest
      (acc ++ ((enc e).gpu_bytes.bytes ++
        List.replicate ((16 - (enc e).gpu_bytes.bytes.length % 16) % 16) 0))
    refine ⟨body, ?_, ?_⟩
    · rw [std140ArrayBody_cons, std140_alignTo16, Option.some_bind]
      exact hb
    · rw [hlen]
      simp only [List.length_append, List.length_replicate, List.map_cons,
        List.sum_cons, strideStd140]
      omega

/-- The std430 element loop succeeds when every element's alignment is
positive, and the resulting length is the accumulator's length plus the sum
of the elements' strides. -/
theorem std430ArrayBody_spec {α : Type} (enc : α → Std430Bytes) :
    ∀ (l : List α) (acc : List Nat),
      (∀ e ∈ l, 0 < (enc e).gpu_bytes.alignment) →
      ∃ body, std430ArrayBody enc l acc = some body ∧
        body.length = acc.length + (l.map fun e => strideStd430 (enc e)).sum
  | [], acc, _ => ⟨acc, rfl, by simp⟩
  | e :: rest, acc, h => by
    obtain ⟨body, hb, hlen⟩ := std430ArrayBody_spec enc rest
      (acc ++ ((enc e).gpu_bytes.bytes ++
        List.replicate (((enc e).gpu_bytes.alignment -
          (enc e).gpu_bytes.bytes.length % (enc e).gpu_bytes.alignment) %
          (enc e).gpu_bytes.alignment) 0))
      (fun x hx => h x (List.mem_cons_of_mem e hx))
    refine ⟨body, ?_, ?_⟩
    · rw [std430ArrayBody_cons,
        std430_align_pos _ (h e (List.mem_cons_self e rest)),
        Option.some_bind]
      exact hb
    · rw [hlen]
      simp only [List.length_append, List.length_replicate, List.map_cons,
        List.sum_cons, strideStd430]
      omega

/-- The sum of the element strides is bounded by the element count times a
per-element bound. -/
theorem stride_sum_le {γ : Type} (l : List γ) (f : γ → Nat) (bound : Nat)
    (h : ∀ e ∈ l, f e ≤ bound) : (l.map f).sum ≤ l.length * bound := by
  have := List.sum_le_card_nsmul (l.map f) bound ?_
  · simpa [List.length_map, smul_eq_mul] using this
  · intro x hx
    obtain ⟨e, he, rfl⟩ := List.mem_map.mp hx
    exact h e he

/-! ### C3 -/

/-- Claim C3 counterexample: a `Vec<Std140Bytes>` of capacity 1 (nonzero)
holding one 4-byte encoded value. `Std140Bytes` implements `AsStd140` (by
cloning) and `Default` (empty buffer), so the default's re-aligned encoding
is empty, the reserved total is 0, and the final padding subtraction
underflows: the encoder panics despite the nonzero capacity. -/
theorem C3_counterexample :
    badVecStd140.cap ≠ 0 ∧
    vecAsStd140 (fun s => s) Std140Bytes.new badVecStd140 = none := by
  decide

/-- Claim C3 amended: encoding a `Vec<T>` panics when the declared capacity
is zero, but a nonzero capacity alone does not guarantee success: the
encoder also panics (underflow) when an element's re-aligned encoding is
longer than the default value's. Encoding does succeed for every Vec of
nonzero capacity whose elements' strides are at most the default's stride
(for std430, additionally with positive alignments) — in particular for the
primitive element types, whose encodings all share the default's length. -/
theorem C3_capacity_panic {α : Type} {β : Type} (enc : α → Std140Bytes)
    (d : α) (vz v : RustVec α) (enc430 : β → Std430Bytes) (d430 : β)
    (wz w : RustVec β) :
    (vz.cap = 0 → vecAsStd140 enc d vz = none) ∧
    (v.cap ≠ 0 →
      (∀ e ∈ v.elems, strideStd140 (enc e) ≤ strideStd140 (enc d)) →
      (vecAsStd140 enc d v).isSome = true) ∧
    (wz.cap = 0 → vecAsStd430 enc430 d430 wz = none) ∧
    (w.cap ≠ 0 → 0 < (enc430 d430).gpu_bytes.alignment →
      (∀ e ∈ w.elems, 0 < (enc430 e).gpu_bytes.alignment ∧
        strideStd430 (enc430 e) ≤ strideStd430 (enc430 d430)) →
      (vecAsStd430 enc430 d430 w).isSome = true) := by
  refine ⟨fun h => ?_, fun hcap hle => ?_, fun h => ?_,
    fun hcap hpos hel => ?_⟩
  · unfold vecAsStd140
    rw [if_pos h]
  · obtain ⟨body, hb, hlen⟩ := std140ArrayBody_spec enc v.elems []
    unfold vecAsStd140
    simp only [if_neg hcap, std140_alignTo16, Option.some_bind, hb]
    have hbound : ¬ (((enc d).gpu_bytes.bytes ++
        List.replicate ((16 - (enc d).gpu_bytes.bytes.length % 16) % 16)
          0).length * v.cap < body.length) := by
      rw [not_lt, hlen]
      have h1 := stride_sum_le v.elems (fun e => strideStd140 (enc e))
        (strideStd140 (enc d)) hle
      have h2 : v.elems.length * strideStd140 (enc d) ≤
          v.cap * strideStd140 (enc d) :=
        Nat.mul_le_mul_right _ v.length_le_cap
      have h3 : ((enc d).gpu_bytes.bytes ++
          List.replicate ((16 - (enc d).gpu_bytes.bytes.length % 16) % 16)
            0).length = strideStd140 (enc d) := by
        simp [strideStd140]
      rw [h3, Nat.mul_comm]
      simpa using le_trans h1 h2
    rw [if_neg hbound]
    rfl
  · unfold vecAsStd430
    rw [if_pos h]
  · obtain ⟨body, hb, hlen⟩ := std430ArrayBody_spec enc430 w.elems []
      (fun e he => (hel e he).1)
    unfold vecAsStd430
    simp only [if_neg hcap, std430_align_pos _ hpos, Option.some_bind, hb]
    have hbound : ¬ (((enc430 d430).gpu_bytes.bytes ++
        List.replicate (((enc430 d430).gpu_bytes.alignment -
          (enc430 d430).gpu_bytes.bytes.length %
            (enc430 d430).gpu_bytes.alignment) %
          (enc430 d430).gpu_bytes.alignment) 0).length * w.cap <
        body.length) := by
      rw [not_lt, hlen]
      have h1 := stride_sum_le w.elems (fun e => strideStd430 (enc430 e))
        (strideStd430 (enc430 d430)) (fun e he => (hel e he).2)
      have h2 : w.elems.length * strideStd430 (enc430 d430) ≤
          w.cap * strideStd430 (enc430 d430) :=
        Nat.mul_le_mul_right _ w.length_le_cap
      have h3 : ((enc430 d430).gpu_bytes.bytes ++
          List.replicate (((enc430 d430).gpu_bytes.alignment -
            (enc430 d430).gpu_bytes.bytes.length %
              (enc430 d430).gpu_bytes.alignment) %
            (enc430 d430).gpu_bytes.alignment) 0).length =
          strideStd430 (enc430 d430) := by
        simp [strideStd430]
      rw [h3, Nat.mul_comm]
      simpa using le_trans h1 h2
    rw [if_neg hbound]
    rfl

/-- Witness for C3 amended: a zero-capacity Vec is rejected in each
convention, and the concrete one-element capacity-2 Vecs encode
successfully. -/
theorem C3_capacity_panic_witness :
    (vecAsStd140 (fun s => s) exDefaultStd140
      (RustVec.mk [] 0 (by decide)) = none) ∧
    ((vecAsStd140 (fun s => s) exDefaultStd140 exVecStd140).isSome = true) ∧
    (vecAsStd430 (fun s => s) exDefaultStd430
      (RustVec.mk [] 0 (by decide)) = none) ∧
    ((vecAsStd430 (fun s => s) exDefaultStd430 exVecStd430).isSome = true) :=
  ⟨(C3_capacity_panic (fun s => s) exDefaultStd140
      (RustVec.mk [] 0 (by decide)) exVecStd140 (fun s => s) exDefaultStd430
      (RustVec.mk [] 0 (by decide)) exVecStd430).1 rfl,
   (C3_capacity_panic (fun s => s) exDefaultStd140
      (RustVec.mk [] 0 (by decide)) exVecStd140 (fun s => s) exDefaultStd430
      (RustVec.mk [] 0 (by decide)) exVecStd430).2.1 (by decide) (by decide),
   (C3_capacity_panic (fun s => s) exDefaultStd140
      (RustVec.mk [] 0 (by decide)) exVecStd140 (fun s => s) exDefaultStd430
      (RustVec.mk [] 0 (by decide)) exVecStd430).2.2.1 rfl,
   (C3_capacity_panic (fun s => s) exDefaultStd140
      (RustVec.mk [] 0 (by decide)) exVecStd140 (fun s => s) exDefaultStd430
      (RustVec.mk [] 0 (by decide)) exVecStd430).2.2.2 (by decide)
        (by decide) (by decide)⟩

/-! ### C4 -/

/-- Inversion for a successful `Std140Bytes.align_to(16)`: the result's byte
length is the argument's std140 stride. -/
theorem std140_alignTo16_inv {s t : Std140Bytes} (h : s.alignTo 16 = some t) :
    t.gpu_bytes.bytes.length = strideStd140 s := by
  rw [std140_alignTo16] at h
  cases Option.some_inj.mp h
  simp [strideStd140]

/-- Inversion for a successful `Std430Bytes.align()`: the wrapped alignment
was positive, the result pads the bytes to that alignment (so its length is
the std430 stride), and the alignment is unchanged. -/
theorem std430_align_inv {s t : Std430Bytes} (h : s.align = some t) :
    0 < s.gpu_bytes.alignment ∧
    t.gpu_bytes.alignment = s.gpu_bytes.alignment ∧
    t.gpu_bytes.bytes.length = strideStd430 s := by
  unfold Std430Bytes.align GpuBytes.align at h
  obtain ⟨g, hg, hmk⟩ := Option.map_eq_some'.mp h
  obtain ⟨hpos, rfl⟩ := alignTo_eq_some hg
  subst hmk
  exact ⟨hpos, rfl, by simp [strideStd430]⟩

/-- Claim C4: whenever a `Vec<T>` encodes (so the capacity is nonzero and no
underflow panic occurred), the encoded byte sequence has length equal to the
per-element stride (the default encoding's re-aligned length) times the
declared capacity, independent of how many elements are populated: the bytes
are the concatenation of the populated elements' re-aligned encodings
followed by zero bytes filling the remaining capacity. -/
theorem C4_reserved_footprint {α : Type} {β : Type} (enc : α → Std140Bytes)
    (d : α) (v : RustVec α) (enc430 : β → Std430Bytes) (d430 : β)
    (w : RustVec β) (out140 : Std140Bytes) (out430 : Std430Bytes) :
    (vecAsStd140 enc d v = some out140 →
      out140.gpu_bytes.bytes.length = strideStd140 (enc d) * v.cap ∧
      ∃ body, std140ArrayBody enc v.elems [] = some body ∧
        out140.gpu_bytes.bytes = body ++
          List.replicate (strideStd140 (enc d) * v.cap - body.length) 0) ∧
    (vecAsStd430 enc430 d430 w = some out430 →
      out430.gpu_bytes.bytes.length = strideStd430 (enc430 d430) * w.cap ∧
      ∃ body, std430ArrayBody enc430 w.elems [] = some body ∧
        out430.gpu_bytes.bytes = body ++
          List.replicate (strideStd430 (enc430 d430) * w.cap - body.length) 0) := by
  constructor
  · intro h
    unfold vecAsStd140 at h
    by_cases hc : v.cap = 0
    · rw [if_pos hc] at h
      exact absurd h (by simp)
    · rw [if_neg hc] at h
      obtain ⟨dd, hdd, h1⟩ := Option.bind_eq_some.mp h
      have hlen2 := std140_alignTo16_inv hdd
      obtain ⟨body, hb, h2⟩ := Option.bind_eq_some.mp h1
      rw [hlen2] at h2
      by_cases hlt : strideStd140 (enc d) * v.cap < body.length
      · rw [if_pos hlt] at h2
        exact absurd h2 (by simp)
      · rw [if_neg hlt] at h2
        cases Option.some_inj.mp h2
        refine ⟨?_, body, hb, rfl⟩
        simp only [List.length_append, List.length_replicate]
        generalize strideStd140 (enc d) * v.cap = T at hlt ⊢
        omega
  · intro h
    unfold vecAsStd430 at h
    by_cases hc : w.cap = 0
    · rw [if_pos hc] at h
      exact absurd h (by simp)
    · rw [if_neg hc] at h
      obtain ⟨dd, hdd, h1⟩ := Option.bind_eq_some.mp h
      obtain ⟨_, _, hlen2⟩ := std430_align_inv hdd
      obtain ⟨body, hb, h2⟩ := Option.bind_eq_some.mp h1
      rw [hlen2] at h2
      by_cases hlt : strideStd430 (enc430 d430) * w.cap < body.length
      · rw [if_pos hlt] at h2
        exact absurd h2 (by simp)
      · rw [if_neg hlt] at h2
        cases Option.some_inj.mp h2
        refine ⟨?_, body, hb, rfl⟩
        simp only [List.length_append, List.length_replicate]
        generalize strideStd430 (enc430 d430) * w.cap = T at hlt ⊢
        omega

/-- Witness for C4 at concrete one-element capacity-2 Vecs: the std140
output is 16 × 2 = 32 bytes, the std430 output is 4 × 2 = 8 bytes. -/
theorem C4_reserved_footprint_witness :
    (vecAsStd140 (fun s => s) exDefaultStd140 exVecStd140 =
      some ⟨{ bytes := ([1, 2, 3, 4] ++ List.replicate 12 0) ++
                List.replicate 16 0,
              alignment := 16, layout := Layout.std140 }⟩) ∧
    (vecAsStd430 (fun s => s) exDefaultStd430 exVecStd430 =
      some ⟨{ bytes := [1, 2, 3, 4] ++ List.replicate 4 0,
              alignment := 4, layout := Layout.std430 }⟩) ∧
    ((([1, 2, 3, 4] ++ List.replicate 12 0 : List Nat) ++
        List.replicate 16 0).length =
      strideStd140 exDefaultStd140 * exVecStd140.cap ∧
    ∃ body, std140ArrayBody (fun s => s) exVecStd140.elems [] = some body ∧
      (([1, 2, 3, 4] ++ List.replicate 12 0 : List Nat) ++
        List.replicate 16 0) = body ++
        List.replicate
          (strideStd140 exDefaultStd140 * exVecStd140.cap - body.length) 0) ∧
    (([1, 2, 3, 4] ++ List.replicate 4 0 : List Nat).length =
      strideStd430 exDefaultStd430 * exVecStd430.cap ∧
    ∃ body, std430ArrayBody (fun s => s) exVecStd430.elems [] = some body ∧
      ([1, 2, 3, 4] ++ List.replicate 4 0 : List Nat) = body ++
        List.replicate
          (strideStd430 exDefaultStd430 * exVecStd430.cap - body.length) 0) :=
  ⟨by decide, by decide,
   (C4_reserved_footprint (fun s => s) exDefaultStd140 exVecStd140
      (fun s => s) exDefaultStd430 exVecStd430
      ⟨{ bytes := ([1, 2, 3, 4] ++ List.replicate 12 0) ++
          List.replicate 16 0,
         alignment := 16, layout := Layout.std140 }⟩
      ⟨{ bytes := [1, 2, 3, 4] ++ List.replicate 4 0,
         alignment := 4, layout := Layout.std430 }⟩).1 (by decide),
   (C4_reserved_footprint (fun s => s) exDefaultStd140 exVecStd140
      (fun s => s) exDefaultStd430 exVecStd430
      ⟨{ bytes := ([1, 2, 3, 4] ++ List.replicate 12 0) ++
          List.replicate 16 0,
         alignment := 16, layout := Layout.std140 }⟩
      ⟨{ bytes := [1, 2, 3, 4] ++ List.replicate 4 0,
         alignment := 4, layout := Layout.std430 }⟩).2 (by decide)⟩

/-! ### C9 -/

/-- Claim C9: the Encoded Value produced for a `Vec<T>` has alignment
exactly 16 under std140 (ConventionA), and the computed alignment of the
element type's default encoding under std430 (ConventionB). -/
theorem C9_vec_alignment {α : Type} {β : Type} (enc : α → Std140Bytes)
    (d : α) (v : RustVec α) (enc430 : β → Std430Bytes) (d430 : β)
    (w : RustVec β) (out140 : Std140Bytes) (out430 : Std430Bytes) :
    (vecAsStd140 enc d v = some out140 → out140.gpu_bytes.alignment = 16) ∧
    (vecAsStd430 enc430 d430 w = some out430 →
      out430.gpu_bytes.alignment = (enc430 d430).gpu_bytes.alignment) := by
  constructor
  · intro h
    unfold vecAsStd140 at h
    by_cases hc : v.cap = 0
    · rw [if_pos hc] at h
      exact absurd h (by simp)
    · rw [if_neg hc] at h
      obtain ⟨dd, hdd, h1⟩ := Option.bind_eq_some.mp h
      obtain ⟨body, hb, h2⟩ := Option.bind_eq_some.mp h1
      by_cases hlt : dd.gpu_bytes.bytes.length * v.cap < body.length
      · rw [if_pos hlt] at h2
        exact absurd h2 (by simp)
      · rw [if_neg hlt] at h2
        cases Option.some_inj.mp h2
        rfl
  · intro h
    unfold vecAsStd430 at h
    by_cases hc : w.cap = 0
    · rw [if_pos hc] at h
      exact absurd h (by simp)
    · rw [if_neg hc] at h
      obtain ⟨dd, hdd, h1⟩ := Option.bind_eq_some.mp h
      obtain ⟨_, halign, _⟩ := std430_align_inv hdd
      obtain ⟨body, hb, h2⟩ := Option.bind_eq_some.mp h1
      by_cases hlt : dd.gpu_bytes.bytes.length * w.cap < body.length
      · rw [if_pos hlt] at h2
        exact absurd h2 (by simp)
      · rw [if_neg hlt] at h2
        cases Option.some_inj.mp h2
        exact halign

/-- Witness for C9 at the concrete one-element Vecs: the std140 output has
alignment 16 and the std430 output has the default encoding's alignment 4. -/
theorem C9_vec_alignment_witness :
    (vecAsStd140 (fun s => s) exDefaultStd140 exVecStd140 =
      some ⟨{ bytes := ([1, 2, 3, 4] ++ List.replicate 12 0) ++
                List.replicate 16 0,
              alignment := 16, layout := Layout.std140 }⟩) ∧
    (vecAsStd430 (fun s => s) exDefaultStd430 exVecStd430 =
      some ⟨{ bytes := [1, 2, 3, 4] ++ List.replicate 4 0,
              alignment := 4, layout := Layout.std430 }⟩) ∧
    (16 : Nat) = 16 ∧ (4 : Nat) = 4 :=
  ⟨by decide, by decide,
   (C9_vec_alignment (fun s => s) exDefaultStd140 exVecStd140
      (fun s => s) exDefaultStd430 exVecStd430
      ⟨{ bytes := ([1, 2, 3, 4] ++ List.replicate 12 0) ++
          List.replicate 16 0,
         alignment := 16, layout := Layout.std140 }⟩
      ⟨{ bytes := [1, 2, 3, 4] ++ List.replicate 4 0,
         alignment := 4, layout := Layout.std430 }⟩).1 (by decide),
   (C9_vec_alignment (fun s => s) exDefaultStd140 exVecStd140
      (fun s => s) exDefaultStd430 exVecStd430
      ⟨{ bytes := ([1, 2, 3, 4] ++ List.replicate 12 0) ++
          List.replicate 16 0,
         alignment := 16, layout := Layout.std140 }⟩
      ⟨{ bytes := [1, 2, 3, 4] ++ List.replicate 4 0,
         alignment := 4, layout := Layout.std430 }⟩).2 (by decide)⟩

/-! ### C10 -/

/-- Evaluation of the std140 `Vec<T>` encoder when the accumulated body fits
in the reserved total. -/
theorem vecAsStd140_eval {α : Type} (enc : α → Std140Bytes) (d : α)
    (v : RustVec α) (hcap : v.cap ≠ 0) (body : List Nat)
    (hb : std140ArrayBody enc v.elems [] = some body)
    (hle : body.length ≤ strideStd140 (enc d) * v.cap) :
    vecAsStd140 enc d v = some ⟨{
      bytes := body ++
        List.replicate (strideStd140 (enc d) * v.cap - body.length) 0,
      alignment := 16, layout := Layout.std140 }⟩ := by
  unfold vecAsStd140
  simp only [if_neg hcap, std140_alignTo16, Option.some_bind, hb]
  have hX : ((enc d).gpu_bytes.bytes ++
      List.replicate ((16 - (enc d).gpu_bytes.bytes.length % 16) % 16)
        0).length = strideStd140 (enc d) := by
    simp [strideStd140]
  rw [hX, if_neg (not_lt.mpr hle)]

/-- Evaluation of the std430 `Vec<T>` encoder when the default's alignment
is positive and the accumulated body fits in the reserved total. -/
theorem vecAsStd430_eval {α : Type} (enc : α → Std430Bytes) (d : α)
    (v : RustVec α) (hcap : v.cap ≠ 0)
    (hpos : 0 < (enc d).gpu_bytes.alignment) (body : List Nat)
    (hb : std430ArrayBody enc v.elems [] = some body)
    (hle : body.length ≤ strideStd430 (enc d) * v.cap) :
    vecAsStd430 enc d v = some ⟨{
      bytes := body ++
        List.replicate (strideStd430 (enc d) * v.cap - body.length) 0,
      alignment := (enc d).gpu_bytes.alignment, layout := Layout.std430 }⟩ := by
  unfold vecAsStd430
  simp only [if_neg hcap, std430_align_pos _ hpos, Option.some_bind, hb]
  have hX : ((enc d).gpu_bytes.bytes ++
      List.replicate (((enc d).gpu_bytes.alignment -
        (enc d).gpu_bytes.bytes.length % (enc d).gpu_bytes.alignment) %
        (enc d).gpu_bytes.alignment) 0).length = strideStd430 (enc d) := by
    simp [strideStd430]
  rw [hX, if_neg (not_lt.mpr hle)]

/-- Claim C10: the `Vec<T>` encoders compute the per-element stride from the
encoding of `T::default()`. For every Vec of nonzero capacity whose
elements' re-aligned encodings all have the default's stride, encoding
succeeds and the total length is that stride times the capacity (both
conventions); and for a concrete Vec holding an element whose re-aligned
encoding (32 bytes) is longer than the default's (16 bytes), the
subtraction `total_bytes - bytes.len()` underflows and the encoder
panics. -/
theorem C10_default_stride {α : Type} {β : Type} (enc : α → Std140Bytes)
    (d : α) (v : RustVec α) (enc430 : β → Std430Bytes) (d430 : β)
    (w : RustVec β) :
    (v.cap ≠ 0 →
      (∀ e ∈ v.elems, strideStd140 (enc e) = strideStd140 (enc d)) →
      ∃ out, vecAsStd140 enc d v = some out ∧
        out.gpu_bytes.bytes.length = strideStd140 (enc d) * v.cap) ∧
    (w.cap ≠ 0 → 0 < (enc430 d430).gpu_bytes.alignment →
      (∀ e ∈ w.elems, 0 < (enc430 e).gpu_bytes.alignment ∧
        strideStd430 (enc430 e) = strideStd430 (enc430 d430)) →
      ∃ out, vecAsStd430 enc430 d430 w = some out ∧
        out.gpu_bytes.bytes.length = strideStd430 (enc430 d430) * w.cap) ∧
    vecAsStd140 (fun s => s) exDefaultStd140 longElemVecStd140 = none := by
  refine ⟨fun hcap huni => ?_, fun hcap hpos hel => ?_, by decide⟩
  · obtain ⟨body, hb, hlen⟩ := std140ArrayBody_spec enc v.elems []
    have hble : body.length ≤ strideStd140 (enc d) * v.cap := by
      rw [hlen]
      simp only [List.length_nil, Nat.zero_add]
      exact le_trans
        (stride_sum_le v.elems (fun e => strideStd140 (enc e))
          (strideStd140 (enc d)) (fun e he => le_of_eq (huni e he)))
        (le_trans (Nat.mul_le_mul_right _ v.length_le_cap)
          (le_of_eq (Nat.mul_comm _ _)))
    refine ⟨_, vecAsStd140_eval enc d v hcap body hb hble, ?_⟩
    simp only [List.length_append, List.length_replicate]
    generalize strideStd140 (enc d) * v.cap = T at hble ⊢
    omega
  · obtain ⟨body, hb, hlen⟩ := std430ArrayBody_spec enc430 w.elems []
      (fun e he => (hel e he).1)
    have hble : body.length ≤ strideStd430 (enc430 d430) * w.cap := by
      rw [hlen]
      simp only [List.length_nil, Nat.zero_add]
      exact le_trans
        (stride_sum_le w.elems (fun e => strideStd430 (enc430 e))
          (strideStd430 (enc430 d430)) (fun e he => le_of_eq (hel e he).2))
        (le_trans (Nat.mul_le_mul_right _ w.length_le_cap)
          (le_of_eq (Nat.mul_comm _ _)))
    refine ⟨_, vecAsStd430_eval enc430 d430 w hcap hpos body hb hble, ?_⟩
    simp only [List.length_append, List.length_replicate]
    generalize strideStd430 (enc430 d430) * w.cap = T at hble ⊢
    omega

/-- Witness for C10 at the concrete one-element Vecs: element strides match
the defaults' (16 and 4), and both encoders produce the full reserved
footprint. -/
theorem C10_default_stride_witness :
    (exVecStd140.cap ≠ 0) ∧
    (∀ e ∈ exVecStd140.elems, strideStd140 e = strideStd140 exDefaultStd140) ∧
    (exVecStd430.cap ≠ 0) ∧
    (0 < exDefaultStd430.gpu_bytes.alignment) ∧
    (∀ e ∈ exVecStd430.elems, 0 < e.gpu_bytes.alignment ∧
      strideStd430 e = strideStd430 exDefaultStd430) ∧
    (∃ out, vecAsStd140 (fun s => s) exDefaultStd140 exVecStd140 =
        some out ∧
      out.gpu_bytes.bytes.length =
        strideStd140 exDefaultStd140 * exVecStd140.cap) ∧
    (∃ out, vecAsStd430 (fun s => s) exDefaultStd430 exVecStd430 =
        some out ∧
      out.gpu_bytes.bytes.length =
        strideStd430 exDefaultStd430 * exVecStd430.cap) :=
  ⟨by decide, by decide, by decide, by decide, by decide,
   (C10_default_stride (fun s => s) exDefaultStd140 exVecStd140
      (fun s => s) exDefaultStd430 exVecStd430).1 (by decide) (by decide),
   (C10_default_stride (fun s => s) exDefaultStd140 exVecStd140
      (fun s => s) exDefaultStd430 exVecStd430).2.1 (by decide) (by decide)
        (by decide)⟩

end GpuBytesLib
